import Mathlib

/-!
Verification of the sssd directory backend of adsys
(`internal/ad/backends/sss/sss.go`) and of the daemon lifecycle controller
described by its documentation, against the natural-language specification.

Go strings are modelled as Lean `String`s (Go's `for _, c := range s`
iterates over runes, which matches iteration over `String.data`); Go `nil`
errors become `Option.none` / `Except.ok`; results of remote bus calls and of
file loading are passed in as explicit parameters.
-/

namespace Adsys

/-! ## Hexadecimal formatting, modelling Go's `fmt.Sprintf("%02x", c)` -/

/-- The lowercase hexadecimal digit character for `n < 16`
(`'0'.toNat = 48`, `'a'.toNat = 97`). -/
def hexDigitChar (n : Nat) : Char :=
  if n < 10 then Char.ofNat (48 + n) else Char.ofNat (87 + n)

/-- Fuel-driven big-endian base-16 digit expansion of a natural number;
`fuel > n` always suffices. -/
def hexDigitsAux : Nat → Nat → List Char
  | 0, _ => []
  | fuel + 1, n =>
      if n < 16 then [hexDigitChar n]
      else hexDigitsAux fuel (n / 16) ++ [hexDigitChar (n % 16)]

/-- The lowercase hexadecimal digits of `n`, most significant first. -/
def hexDigits (n : Nat) : List Char := hexDigitsAux (n + 1) n

/-- Go's `fmt.Sprintf("%02x", n)`: lowercase hexadecimal, left-padded with
`'0'` to a minimum width of two. -/
def hex02 (n : Nat) : List Char :=
  if n < 16 then ['0', hexDigitChar n] else hexDigits n

/-! ## The object-path-safe encoding (`domainToObjectPath` in `sss.go`) -/

/-- The character test of `domainToObjectPath`:
`(c >= '0' && c <= '9') || (c >= 'A' && c <= 'Z') || (c >= 'a' && c <= 'z') || c == '_'`. -/
def isPathSafe (c : Char) : Bool :=
  ('0' ≤ c && c ≤ '9') || ('A' ≤ c && c ≤ 'Z') ||
    ('a' ≤ c && c ≤ 'z') || c == '_'

/-- `domainToObjectPath` from `sss.go`: starting from the empty string, safe
characters are appended verbatim and every other rune `c` is appended as
`fmt.Sprintf("%s_%02x", r, c)`. -/
def domainToObjectPath (s : String) : String :=
  s.data.foldl
    (fun r c =>
      if isPathSafe c then r ++ c.toString
      else r ++ "_" ++ ⟨hex02 c.toNat⟩)
    ""

/-- Per-character expansion of the encoding, used to reason about the
accumulator loop. -/
def encChar (c : Char) : List Char :=
  if isPathSafe c then [c] else '_' :: hex02 c.toNat

/-- List-level form of the encoding. -/
def encodeList (l : List Char) : List Char := l.flatMap encChar

lemma foldl_encode (l : List Char) (r : String) :
    l.foldl
      (fun r c =>
        if isPathSafe c then r ++ c.toString
        else r ++ "_" ++ ⟨hex02 c.toNat⟩)
      r = r ++ ⟨encodeList l⟩ := by
  induction l generalizing r with
  | nil =>
    apply String.ext
    simp [encodeList, String.data_append]
  | cons c t ih =>
    simp only [List.foldl_cons]
    rw [ih]
    apply String.ext
    by_cases hc : isPathSafe c <;>
      simp [hc, encodeList, encChar, String.data_append, Char.toString]

/-- The source encoding agrees character data-wise with `encodeList`. -/
lemma domainToObjectPath_data (s : String) :
    (domainToObjectPath s).data = encodeList s.data := by
  unfold domainToObjectPath
  rw [foldl_encode]
  rfl

lemma hexDigitsAux_eq_digits (fuel : Nat) :
    ∀ n, n < fuel → 0 < n →
      hexDigitsAux fuel n = ((Nat.digits 16 n).reverse).map hexDigitChar := by
  induction fuel with
  | zero => omega
  | succ f ih =>
    intro n hlt hpos
    by_cases h16 : n < 16
    · have hdig : Nat.digits 16 n = [n] := by
        rw [Nat.digits_def' (by omega) hpos]
        have h1 : n / 16 = 0 := Nat.div_eq_of_lt h16
        have h2 : n % 16 = n := Nat.mod_eq_of_lt h16
        simp_all
      simp [hexDigitsAux, h16, hdig]
    · have hq : 0 < n / 16 := Nat.div_pos (by omega) (by omega)
      have hqlt : n / 16 < f := by
        have := Nat.div_lt_self (by omega : 0 < n) (by omega : 1 < 16)
        omega
      rw [Nat.digits_def' (by omega : 1 < 16) hpos]
      simp only [hexDigitsAux, h16, if_false, List.reverse_cons, List.map_append,
        List.map_cons, List.map_nil]
      rw [ih _ hqlt hq]

lemma hex02_of_lt_256 (n : Nat) (h : n < 256) :
    hex02 n = [hexDigitChar (n / 16), hexDigitChar (n % 16)] := by
  by_cases h16 : n < 16
  · have h1 : n / 16 = 0 := Nat.div_eq_of_lt h16
    have h2 : n % 16 = n := Nat.mod_eq_of_lt h16
    have h0 : hexDigitChar 0 = '0' := by decide
    simp only [hex02, h16, if_true, h1, h2, h0]
  · have hq : n / 16 < 16 := by omega
    obtain ⟨m, rfl⟩ : ∃ m, n = m + 1 := ⟨n - 1, by omega⟩
    simp [hex02, h16, hexDigits, hexDigitsAux, hq]

/-! ## Spec-side characterization of the encoding (C1) -/

/-- The two-or-more-digit lowercase hexadecimal form of a code point, written
independently of the source's formatter through `Nat.digits`. -/
def specCodePointHex (n : Nat) : List Char :=
  List.replicate (2 - (((Nat.digits 16 n).reverse).map hexDigitChar).length) '0' ++
    ((Nat.digits 16 n).reverse).map hexDigitChar

lemma hex02_eq_spec (n : Nat) : hex02 n = specCodePointHex n := by
  rcases Nat.eq_zero_or_pos n with h0 | hpos
  · subst h0
    simp only [specCodePointHex, Nat.digits_zero, List.reverse_nil, List.map_nil]
    decide
  · by_cases h16 : n < 16
    · have hdig : Nat.digits 16 n = [n] := by
        rw [Nat.digits_def' (by omega) hpos]
        have h1 : n / 16 = 0 := Nat.div_eq_of_lt h16
        have h2 : n % 16 = n := Nat.mod_eq_of_lt h16
        simp_all
      simp [hex02, h16, specCodePointHex, hdig, List.replicate]
    · have hlen : 2 ≤ ((Nat.digits 16 n).reverse.map hexDigitChar).length := by
        rw [Nat.digits_def' (by omega : 1 < 16) hpos]
        have hq : 0 < n / 16 := Nat.div_pos (by omega) (by omega)
        have : Nat.digits 16 (n / 16) ≠ [] := by
          rw [Nat.digits_ne_nil_iff_ne_zero]; omega
        have : 0 < (Nat.digits 16 (n / 16)).length := List.length_pos.mpr this
        simp only [List.length_map, List.length_reverse, List.length_cons]
        omega
      have h0 : 2 - (((Nat.digits 16 n).reverse).map hexDigitChar).length = 0 := by
        omega
      unfold hex02 specCodePointHex
      rw [if_neg h16, hexDigits, hexDigitsAux_eq_digits (n + 1) n (by omega) hpos, h0]
      simp

/-- The per-character encoding as the specification words it, over the
character's Unicode code point. -/
def specEncChar (c : Char) : String :=
  if isPathSafe c then String.singleton c else "_" ++ ⟨specCodePointHex c.toNat⟩

lemma join_data (l : List String) :
    (String.join l).data = (l.map String.data).flatten := by
  have aux : ∀ (l : List String) (r : String),
      (l.foldl (fun a b => a ++ b) r).data = r.data ++ (l.map String.data).flatten := by
    intro l
    induction l with
    | nil => intro r; simp
    | cons x t ih =>
      intro r
      simp only [List.foldl_cons, List.map_cons, List.flatten_cons]
      rw [ih, String.data_append, List.append_assoc]
  have := aux l ""
  simpa [String.join] using this

lemma encChar_eq_specEncChar (c : Char) : encChar c = (specEncChar c).data := by
  by_cases hc : isPathSafe c
  · simp [encChar, specEncChar, hc, String.singleton]
  · simp [encChar, specEncChar, hc, String.data_append, hex02_eq_spec]

/-- C1 (amended): the encoding maps each character of `[0-9A-Za-z_]` to
itself, and replaces every other character by `_` followed by the lowercase
hexadecimal value of its Unicode code point, padded to at least two digits. -/
theorem domainToObjectPath_eq_codepoint_encoding (s : String) :
    domainToObjectPath s = String.join (s.data.map specEncChar) := by
  apply String.ext
  rw [domainToObjectPath_data, join_data, List.map_map]
  have hfun : encChar = String.data ∘ specEncChar := funext fun c => encChar_eq_specEncChar c
  rw [encodeList, List.flatMap_def, hfun]

/-! ## The byte-level encoding the specification describes (C1, C3) -/

/-- The UTF-8 byte sequence of a character, as a list of byte values. -/
def charUTF8 (c : Char) : List Nat :=
  let n := c.toNat
  if n < 128 then [n]
  else if n < 2048 then [192 + n / 64, 128 + n % 64]
  else if n < 65536 then [224 + n / 4096, 128 + (n / 64) % 64, 128 + n % 64]
  else [240 + n / 262144, 128 + (n / 4096) % 64, 128 + (n / 64) % 64, 128 + n % 64]

/-- The byte sequence of a string (UTF-8). -/
def stringBytes (s : String) : List Nat := s.data.flatMap charUTF8

/-- Byte-value version of the `[0-9A-Za-z_]` test. -/
def isPathSafeByte (b : Nat) : Bool :=
  (48 ≤ b && b ≤ 57) || (65 ≤ b && b ≤ 90) || (97 ≤ b && b ≤ 122) || b == 95

/-- Per-byte encoding as the claim words it: a safe byte passes through,
any other byte becomes `_` plus its two-digit lowercase hexadecimal value. -/
def byteEncChar (b : Nat) : List Char :=
  if isPathSafeByte b then [Char.ofNat b]
  else '_' :: [hexDigitChar (b / 16), hexDigitChar (b % 16)]

/-- The whole-string byte-level encoding claimed by the specification. -/
def specByteEncoding (s : String) : String := ⟨(stringBytes s).flatMap byteEncChar⟩

/-- C1 (counterexample): on the one-character string `é` (code point `0xe9`,
UTF-8 bytes `c3 a9`) the source encoding emits the code point, `_e9`, while
the claimed per-byte encoding would emit `_c3_a9`. -/
theorem domainToObjectPath_byte_claim_cex :
    domainToObjectPath "é" = "_e9" ∧ specByteEncoding "é" = "_c3_a9" ∧
      domainToObjectPath "é" ≠ specByteEncoding "é" := by
  refine ⟨by decide, by decide, by decide⟩

/-! ## Identity on the safe alphabet (C8) -/

lemma encodeList_id (l : List Char) (h : ∀ c ∈ l, isPathSafe c = true) :
    encodeList l = l := by
  induction l with
  | nil => rfl
  | cons c t ih =>
    have hc : isPathSafe c = true := h c (List.mem_cons_self c t)
    have ht : encodeList t = t := ih fun x hx => h x (List.mem_cons_of_mem c hx)
    simp [encodeList, encChar, hc] at ht ⊢
    exact ht

/-- C8: on strings made only of characters in `[0-9A-Za-z_]`, the
object-path-safe encoding is the identity. -/
theorem domainToObjectPath_id_on_safe (s : String)
    (h : ∀ c ∈ s.data, isPathSafe c = true) :
    domainToObjectPath s = s := by
  apply String.ext
  rw [domainToObjectPath_data, encodeList_id s.data h]

/-- Witness for C8 at the concrete input `corp_2024`. -/
theorem domainToObjectPath_id_on_safe_witness :
    (∀ c ∈ "corp_2024".data, isPathSafe c = true) ∧
      domainToObjectPath "corp_2024" = "corp_2024" :=
  ⟨by decide, domainToObjectPath_id_on_safe "corp_2024" (by decide)⟩

/-! ## Decoding the encoded form (C3) -/

/-- Lowercase hexadecimal digit test, as produced by the encoder. -/
def isHexLower (c : Char) : Bool :=
  ('0' ≤ c && c ≤ '9') || ('a' ≤ c && c ≤ 'f')

/-- Numeric value of a lowercase hexadecimal digit character. -/
def hexCharVal (c : Char) : Nat :=
  if '0' ≤ c && c ≤ '9' then c.toNat - 48 else c.toNat - 87

/-- Escape-run lookahead of the decoder: when the characters after an
underscore start with two lowercase hexadecimal digits, the byte value they
denote. -/
def escHead : List Char → Option Nat
  | c1 :: c2 :: _ =>
      if isHexLower c1 && isHexLower c2 then
        some (hexCharVal c1 * 16 + hexCharVal c2)
      else none
  | _ => none

/-- Fuel-driven decoder loop; fuel at least the length of the list always
suffices. An underscore followed by two lowercase hexadecimal digits is one
escape run producing one byte; any other character is its own byte. -/
def decodeAux : Nat → List Char → List Nat
  | 0, _ => []
  | _ + 1, [] => []
  | fuel + 1, c :: rest =>
    if c = '_' then
      match escHead rest with
      | some b => b :: decodeAux fuel (rest.drop 2)
      | none => c.toNat :: decodeAux fuel rest
    else c.toNat :: decodeAux fuel rest

/-- The decoder the specification describes: split the encoded string on
`_XX` two-hex-digit runs, turning each run into one byte and every other
character into its own byte. -/
def decodeObjectPath (l : List Char) : List Nat := decodeAux l.length l

lemma decodeAux_fuel (fuel : Nat) :
    ∀ l : List Char, l.length ≤ fuel → decodeAux fuel l = decodeObjectPath l := by
  induction fuel using Nat.strong_induction_on with
  | _ fuel ih =>
    intro l hlen
    match fuel, l with
    | 0, l =>
      have hnil : l = [] := List.eq_nil_of_length_eq_zero (by omega)
      subst hnil; rfl
    | f + 1, [] => rfl
    | f + 1, c :: rest =>
      have hr : rest.length ≤ f := by simp at hlen; omega
      have hd : (rest.drop 2).length ≤ rest.length := by
        simp [List.length_drop]
      have h1 : decodeAux f (rest.drop 2) = decodeObjectPath (rest.drop 2) :=
        ih f (by omega) _ (by omega)
      have h2 : decodeAux rest.length (rest.drop 2) = decodeObjectPath (rest.drop 2) :=
        ih rest.length (by omega) _ (by omega)
      have h3 : decodeAux f rest = decodeObjectPath rest :=
        ih f (by omega) _ hr
      have h4 : decodeAux rest.length rest = decodeObjectPath rest := rfl
      have L : decodeObjectPath (c :: rest) = decodeAux (rest.length + 1) (c :: rest) := rfl
      rw [L, decodeAux, decodeAux]
      by_cases hc : c = '_'
      · simp only [if_pos hc]
        cases he : escHead rest with
        | some b => simp only [h1, h2]
        | none => simp only [h3, h4]
      · simp only [if_neg hc, h3, h4]

lemma decode_cons_ne (c : Char) (t : List Char) (h : c ≠ '_') :
    decodeObjectPath (c :: t) = c.toNat :: decodeObjectPath t := by
  show decodeAux (t.length + 1) (c :: t) = _
  rw [decodeAux, if_neg h]
  rfl

lemma decode_underscore_hex (c1 c2 : Char) (r : List Char)
    (h : (isHexLower c1 && isHexLower c2) = true) :
    decodeObjectPath ('_' :: c1 :: c2 :: r) =
      (hexCharVal c1 * 16 + hexCharVal c2) :: decodeObjectPath r := by
  show decodeAux (r.length + 1 + 1 + 1) ('_' :: c1 :: c2 :: r) = _
  rw [decodeAux, if_pos rfl]
  have he : escHead (c1 :: c2 :: r) = some (hexCharVal c1 * 16 + hexCharVal c2) := by
    simp [escHead, h]
  rw [he]
  show (hexCharVal c1 * 16 + hexCharVal c2) :: decodeAux (r.length + 1 + 1) r = _
  rw [decodeAux_fuel (r.length + 1 + 1) r (by omega)]

lemma decode_underscore_nothex (c1 c2 : Char) (r : List Char)
    (h : (isHexLower c1 && isHexLower c2) = false) :
    decodeObjectPath ('_' :: c1 :: c2 :: r) =
      '_'.toNat :: decodeObjectPath (c1 :: c2 :: r) := by
  show decodeAux (r.length + 1 + 1 + 1) ('_' :: c1 :: c2 :: r) = _
  rw [decodeAux, if_pos rfl]
  have he : escHead (c1 :: c2 :: r) = none := by
    simp [escHead, h]
  rw [he]
  show '_'.toNat :: decodeAux (r.length + 1 + 1) (c1 :: c2 :: r) = _
  rw [decodeAux_fuel (r.length + 1 + 1) (c1 :: c2 :: r) (by simp)]

/-- No underscore of the input is immediately followed by two lowercase
hexadecimal digit characters (such an occurrence collides with an escape
run of the encoder). -/
def noUnderscoreHex : List Char → Bool
  | u :: c1 :: c2 :: rest =>
      !(u == '_' && isHexLower c1 && isHexLower c2) && noUnderscoreHex (c1 :: c2 :: rest)
  | _ => true

lemma noUnderscoreHex_tail (c : Char) (t : List Char)
    (h : noUnderscoreHex (c :: t) = true) : noUnderscoreHex t = true := by
  match t with
  | [] => rfl
  | [c1] => rfl
  | c1 :: c2 :: r =>
    simp only [noUnderscoreHex, Bool.and_eq_true] at h
    exact h.2

lemma hexDigitChar_props : ∀ m, m < 16 →
    isHexLower (hexDigitChar m) = true ∧ hexCharVal (hexDigitChar m) = m := by
  decide

lemma isHexLower_underscore : isHexLower '_' = false := by decide

lemma decode_underscore_encode (t : List Char)
    (hascii : ∀ c ∈ t, c.toNat < 128)
    (hnuh : noUnderscoreHex ('_' :: t) = true) :
    decodeObjectPath ('_' :: encodeList t) =
      '_'.toNat :: decodeObjectPath (encodeList t) := by
  cases t with
  | nil => rfl
  | cons c1 t1 =>
    by_cases h1 : isPathSafe c1
    · have henc : encodeList (c1 :: t1) = c1 :: encodeList t1 := by
        simp [encodeList, encChar, h1]
      rw [henc]
      cases t1 with
      | nil => rfl
      | cons c2 t2 =>
        by_cases h2 : isPathSafe c2
        · have henc2 : encodeList (c2 :: t2) = c2 :: encodeList t2 := by
            simp [encodeList, encChar, h2]
          rw [henc2]
          have hh : (isHexLower c1 && isHexLower c2) = false := by
            by_cases hb : (isHexLower c1 && isHexLower c2) = true
            · exfalso
              simp [noUnderscoreHex, hb] at hnuh
            · simpa using hb
          exact decode_underscore_nothex c1 c2 _ hh
        · have henc2 : encodeList (c2 :: t2) = '_' :: (hex02 c2.toNat ++ encodeList t2) := by
            simp [encodeList, encChar, h2]
          rw [henc2]
          have hh : (isHexLower c1 && isHexLower '_') = false := by
            simp [isHexLower_underscore]
          exact decode_underscore_nothex c1 '_' _ hh
    · have hc1 : c1.toNat < 128 := hascii c1 (List.mem_cons_self c1 t1)
      have henc : encodeList (c1 :: t1) = '_' :: (hex02 c1.toNat ++ encodeList t1) := by
        simp [encodeList, encChar, h1]
      rw [henc, hex02_of_lt_256 c1.toNat (by omega)]
      have hh : (isHexLower '_' &&
          isHexLower (hexDigitChar (c1.toNat / 16))) = false := by
        simp [isHexLower_underscore]
      exact decode_underscore_nothex '_' _ _ hh

lemma decode_encodeList (l : List Char) :
    (∀ c ∈ l, c.toNat < 128) → noUnderscoreHex l = true →
      decodeObjectPath (encodeList l) = l.map Char.toNat := by
  induction l with
  | nil => intro _ _; rfl
  | cons c t ih =>
    intro hascii hnuh
    have hat : ∀ x ∈ t, x.toNat < 128 := fun x hx => hascii x (List.mem_cons_of_mem c hx)
    have hnt : noUnderscoreHex t = true := noUnderscoreHex_tail c t hnuh
    have ih' := ih hat hnt
    by_cases hc : isPathSafe c
    · have henc : encodeList (c :: t) = c :: encodeList t := by
        simp [encodeList, encChar, hc]
      rw [henc]
      by_cases hu : c = '_'
      · subst hu
        rw [decode_underscore_encode t hat hnuh, ih']
        rfl
      · rw [decode_cons_ne c _ hu, ih']
        rfl
    · have hlt : c.toNat < 128 := hascii c (List.mem_cons_self c t)
      have henc : encodeList (c :: t) = '_' :: (hex02 c.toNat ++ encodeList t) := by
        simp [encodeList, encChar, hc]
      rw [henc, hex02_of_lt_256 c.toNat (by omega)]
      have hp1 := hexDigitChar_props (c.toNat / 16) (by omega)
      have hp2 := hexDigitChar_props (c.toNat % 16) (by omega)
      have hh : (isHexLower (hexDigitChar (c.toNat / 16)) &&
          isHexLower (hexDigitChar (c.toNat % 16))) = true := by
        rw [hp1.1, hp2.1]
        rfl
      rw [show ([hexDigitChar (c.toNat / 16), hexDigitChar (c.toNat % 16)] ++
            encodeList t : List Char) =
          hexDigitChar (c.toNat / 16) :: hexDigitChar (c.toNat % 16) :: encodeList t
          from rfl]
      rw [decode_underscore_hex _ _ _ hh, hp1.2, hp2.2, ih']
      have hval : c.toNat / 16 * 16 + c.toNat % 16 = c.toNat := by omega
      rw [hval]
      rfl

lemma charUTF8_ascii (c : Char) (h : c.toNat < 128) : charUTF8 c = [c.toNat] := by
  simp [charUTF8, h]

lemma stringBytes_ascii (l : List Char) (h : ∀ c ∈ l, c.toNat < 128) :
    l.flatMap charUTF8 = l.map Char.toNat := by
  induction l with
  | nil => rfl
  | cons c t ih =>
    have hc := charUTF8_ascii c (h c (List.mem_cons_self c t))
    have ht := ih fun x hx => h x (List.mem_cons_of_mem c hx)
    simp [hc, ht]

/-- C3 (amended): for strings of ASCII characters containing a character
outside `[0-9A-Za-z_]` and containing no underscore immediately followed by
two lowercase hexadecimal digits, decoding the encoded form on `_XX`
two-hex-digit runs reconstructs the original byte sequence exactly. -/
theorem objectPath_ascii_roundtrip (s : String)
    (hascii : ∀ c ∈ s.data, c.toNat < 128)
    (_houtside : ∃ c ∈ s.data, isPathSafe c = false)
    (hnuh : noUnderscoreHex s.data = true) :
    decodeObjectPath (domainToObjectPath s).data = stringBytes s := by
  rw [domainToObjectPath_data, decode_encodeList s.data hascii hnuh]
  rw [stringBytes, stringBytes_ascii s.data hascii]

/-- Witness for C3 (amended) at the concrete input `corp.example`. -/
theorem objectPath_ascii_roundtrip_witness :
    (∀ c ∈ "corp.example".data, c.toNat < 128) ∧
      (∃ c ∈ "corp.example".data, isPathSafe c = false) ∧
      noUnderscoreHex "corp.example".data = true ∧
      decodeObjectPath (domainToObjectPath "corp.example").data =
        stringBytes "corp.example" :=
  ⟨by decide, by decide, by decide,
    objectPath_ascii_roundtrip "corp.example" (by decide) (by decide) (by decide)⟩

/-- C3 (counterexample): the claimed round trip fails as stated. The string
`._12` contains a byte outside the safe set, yet its encoding `_2e_12`
decodes to the two bytes `2e 12`, not back to `._12`; the string `é` also
contains such a byte, yet its encoding `_e9` decodes to the single byte `e9`
rather than its UTF-8 bytes `c3 a9`. -/
theorem objectPath_roundtrip_cex :
    ((∃ c ∈ "._12".data, isPathSafe c = false) ∧
      decodeObjectPath (domainToObjectPath "._12").data ≠ stringBytes "._12") ∧
    ((∃ c ∈ "é".data, isPathSafe c = false) ∧
      decodeObjectPath (domainToObjectPath "é").data ≠ stringBytes "é") :=
  ⟨⟨by decide, by decide⟩, ⟨by decide, by decide⟩⟩

/-! ## The parsed sssd configuration file

`ini.InsensitiveLoad` produces a sectioned key/value structure with
case-insensitive section and key lookup; a missing key reads as the empty
string and a missing section behaves as a section with zero keys. -/

/-- Go `strings.ToLower`, on the ASCII range this backend uses. -/
def goToLower (s : String) : String := ⟨s.data.map Char.toLower⟩

/-- Go `strings.ToUpper`, on the ASCII range this backend uses. -/
def goToUpper (s : String) : String := ⟨s.data.map Char.toUpper⟩

/-- Go `strings.Split` loop for a one-character separator. -/
def goSplitAux (sep : Char) : List Char → List Char → List String
  | [], acc => [⟨acc.reverse⟩]
  | c :: rest, acc =>
      if c = sep then ⟨acc.reverse⟩ :: goSplitAux sep rest []
      else goSplitAux sep rest (c :: acc)

/-- Go `strings.Split(s, sep)` for a one-character separator: the list of
substrings between occurrences of the separator; never empty. -/
def goSplit (s : String) (sep : Char) : List String := goSplitAux sep s.data []

/-- One section of the parsed configuration: ordered key/value pairs. -/
structure IniSection where
  keys : List (String × String)
deriving DecidableEq

/-- `section.Key(name).String()` of the go-ini library under
`InsensitiveLoad`: case-insensitive lookup, empty string when absent. -/
def IniSection.key (sec : IniSection) (name : String) : String :=
  match sec.keys.find? (fun kv => goToLower kv.1 == goToLower name) with
  | some kv => kv.2
  | none => ""

/-- `section.KeyStrings()`: the names of the keys of the section. -/
def IniSection.keyStrings (sec : IniSection) : List String := sec.keys.map (·.1)

/-- The parsed configuration file: named sections. -/
structure IniFile where
  sections : List (String × IniSection)
deriving DecidableEq

/-- `cfg.Section(name)` under `InsensitiveLoad`: case-insensitive lookup; an
absent section is materialized with zero keys. -/
def IniFile.getSection (cfg : IniFile) (name : String) : IniSection :=
  match cfg.sections.find? (fun sv => goToLower sv.1 == goToLower name) with
  | some sv => sv.2
  | none => ⟨[]⟩

/-! ## Constants and path joining -/

/-- Modelled from the spec: the well-known default sssd configuration path
substituted for an empty `config` setting (`consts.DefaultSSSConf`, not under
the excerpted sources). -/
def defaultSSSConf : String := "/etc/sssd/sssd.conf"

/-- Modelled from the spec: the well-known default sssd cache directory
substituted for an empty `cache_dir` setting (`consts.DefaultSSSCacheDir`,
not under the excerpted sources). -/
def defaultSSSCacheDir : String := "/var/lib/sss/db"

/-- Modelled from the spec: the fixed base object path of the sssd infopipe
(`consts.SSSDDbusBaseObjectPath`, not under the excerpted sources). -/
def sssdDbusBaseObjectPath : String := "/org/freedesktop/sssd/infopipe/Domains"

/-- Go `filepath.Join` on two already-clean components, as used by this
backend: the components joined by a single slash, the second alone when the
first is empty. -/
def joinPath (a b : String) : String := if a = "" then b else a ++ "/" ++ b

/-- Go `strings.TrimPrefix(s, "ldap://")`: remove one leading occurrence of
the scheme, leave the string unchanged otherwise. -/
def goTrimLdap (s : String) : String :=
  match s.data with
  | 'l' :: 'd' :: 'a' :: 'p' :: ':' :: '/' :: '/' :: rest => ⟨rest⟩
  | _ => s

/-! ## The SSS backend state and construction (`New` in `sss.go`) -/

/-- `Config` of the sss backend: configuration file path and cache dir. -/
structure Config where
  conf : String
  cacheDir : String
deriving DecidableEq

/-- The `SSS` backend object. The dbus bus object is modelled by the object
path it is registered under. -/
structure SSS where
  domain : String
  domainDbusPath : String
  serverFQDN : String
  staticServerFQDN : String
  hostKrb5CCName : String
  defaultDomainSuffix : String
  config : Config
deriving DecidableEq

/-- The Go zero value `SSS{}` returned on every construction failure. -/
def SSS.zero : SSS := ⟨"", "", "", "", "", "", ⟨"", ""⟩⟩

/-- The construction error paths of `New`, one constructor per `return`
with a non-nil error. -/
inductive NewErr
  | iniLoad (msg : String)
  | noDefaultDomain
  | emptyDomainSection (domain : String)
deriving DecidableEq

/-- `New` from `sss.go`. File loading is an effect, so the result of
`ini.InsensitiveLoad(c.Conf)` is passed in as `loadResult`; the pair mirrors
Go's `(SSS, error)` return. -/
def New (c : Config) (loadResult : Except String IniFile) : SSS × Option NewErr :=
  let conf := if c.conf = "" then defaultSSSConf else c.conf
  let cacheDir := if c.cacheDir = "" then defaultSSSCacheDir else c.cacheDir
  match loadResult with
  | .error e => (SSS.zero, some (.iniLoad e))
  | .ok cfg =>
    let defaultDomainSuffix0 := (cfg.getSection "sssd").key "default_domain_suffix"
    let sssdDomain := (goSplit ((cfg.getSection "sssd").key "domains") ',').headD ""
    if sssdDomain = "" then
      (SSS.zero, some .noDefaultDomain)
    else
      let domainSection := cfg.getSection ("domain/" ++ sssdDomain)
      if domainSection.keyStrings.length = 0 then
        (SSS.zero, some (.emptyDomainSection sssdDomain))
      else
        let domain0 := domainSection.key "ad_domain"
        let domain := if domain0 = "" then sssdDomain else domain0
        let defaultDomainSuffix :=
          if defaultDomainSuffix0 = "" then domain else defaultDomainSuffix0
        let domainDbusPath :=
          joinPath sssdDbusBaseObjectPath (domainToObjectPath domain)
        let staticServerFQDN0 := (cfg.getSection ("domain/" ++ sssdDomain)).key "ad_server"
        let staticServerFQDN :=
          if staticServerFQDN0 ≠ "" then goTrimLdap staticServerFQDN0
          else staticServerFQDN0
        let hostCCName := joinPath cacheDir ("ccache_" ++ goToUpper domain)
        ({ domain := domain
           domainDbusPath := domainDbusPath
           serverFQDN := staticServerFQDN
           staticServerFQDN := staticServerFQDN
           hostKrb5CCName := hostCCName
           defaultDomainSuffix := defaultDomainSuffix
           config := ⟨conf, cacheDir⟩ }, none)

/-! ## The backend operations -/

/-- `Domain()`. -/
def Domain (sss : SSS) : String := sss.domain

/-- The error paths of `ServerFQDN`: transport failure of the bus call, or
the sentinel `backends.ErrNoActiveServer` on an empty discovery result. -/
inductive FQDNErr
  | transport (msg : String)
  | noActiveServer
deriving DecidableEq

/-- `ServerFQDN` from `sss.go`. The remote
`ActiveServer("AD")` bus call is an effect, so its outcome is passed in as
`activeServerCall` (transport error or returned string). -/
def ServerFQDN (sss : SSS) (activeServerCall : Except String String) :
    Except FQDNErr String :=
  if sss.staticServerFQDN ≠ "" then .ok sss.staticServerFQDN
  else
    match activeServerCall with
    | .error e => .error (.transport e)
    | .ok serverFQDN =>
        if serverFQDN = "" then .error .noActiveServer
        else .ok (goTrimLdap serverFQDN)

/-- `HostKrb5CCName()` from `sss.go`: the precomputed path and a nil error. -/
def HostKrb5CCName (sss : SSS) : String × Option String := (sss.hostKrb5CCName, none)

/-- `DefaultDomainSuffix()`. -/
def DefaultDomainSuffix (sss : SSS) : String := sss.defaultDomainSuffix

/-- The dynamic-discovery behavior of `ServerFQDN` when no static server is
configured, as the specification words it. -/
def serverFQDNDynamic (call : Except String String) : Except FQDNErr String :=
  match call with
  | .error e => .error (.transport e)
  | .ok r => if r = "" then .error .noActiveServer else .ok (goTrimLdap r)

/-- Shape of every successful construction: the resolved intermediate values
and the full record `New` returns. -/
lemma New_ok_shape (c : Config) (ini : IniFile) (s : SSS)
    (hnew : New c (.ok ini) = (s, none)) :
    ∃ sssdDomain domain,
      sssdDomain = (goSplit ((ini.getSection "sssd").key "domains") ',').headD "" ∧
      sssdDomain ≠ "" ∧
      (ini.getSection ("domain/" ++ sssdDomain)).keyStrings.length ≠ 0 ∧
      domain = (if (ini.getSection ("domain/" ++ sssdDomain)).key "ad_domain" = ""
                then sssdDomain
                else (ini.getSection ("domain/" ++ sssdDomain)).key "ad_domain") ∧
      s = { domain := domain
            domainDbusPath := joinPath sssdDbusBaseObjectPath (domainToObjectPath domain)
            serverFQDN :=
              if (ini.getSection ("domain/" ++ sssdDomain)).key "ad_server" ≠ ""
              then goTrimLdap ((ini.getSection ("domain/" ++ sssdDomain)).key "ad_server")
              else (ini.getSection ("domain/" ++ sssdDomain)).key "ad_server"
            staticServerFQDN :=
              if (ini.getSection ("domain/" ++ sssdDomain)).key "ad_server" ≠ ""
              then goTrimLdap ((ini.getSection ("domain/" ++ sssdDomain)).key "ad_server")
              else (ini.getSection ("domain/" ++ sssdDomain)).key "ad_server"
            hostKrb5CCName :=
              joinPath (if c.cacheDir = "" then defaultSSSCacheDir else c.cacheDir)
                ("ccache_" ++ goToUpper domain)
            defaultDomainSuffix :=
              if (ini.getSection "sssd").key "default_domain_suffix" = ""
              then domain
              else (ini.getSection "sssd").key "default_domain_suffix"
            config := ⟨if c.conf = "" then defaultSSSConf else c.conf,
                       if c.cacheDir = "" then defaultSSSCacheDir else c.cacheDir⟩ } := by
  unfold New at hnew
  by_cases h1 : (goSplit ((ini.getSection "sssd").key "domains") ',').headD "" = ""
  · simp only [h1, if_pos rfl, if_true] at hnew
    exact absurd (congrArg Prod.snd hnew) (by simp)
  · simp only [if_neg h1] at hnew
    by_cases h2 : (ini.getSection
        ("domain/" ++ (goSplit ((ini.getSection "sssd").key "domains") ',').headD "")).keyStrings.length = 0
    · simp only [h2, if_pos rfl, if_true] at hnew
      exact absurd (congrArg Prod.snd hnew) (by simp)
    · simp only [if_neg h2] at hnew
      refine ⟨_, _, rfl, h1, h2, rfl, ?_⟩
      have := congrArg Prod.fst hnew
      simp only at this
      exact this.symm

lemma New_error_ne_success (c : Config) (e : String) (s : SSS) :
    New c (.error e) ≠ (s, none) := by
  intro h
  exact absurd (congrArg Prod.snd h) (by simp [New])

/-- C5: after every successful construction the domain is non-empty and the
default domain suffix is non-empty, equal to the configured
`default_domain_suffix` when that is non-empty and to the domain
otherwise. -/
theorem new_success_invariants (c : Config) (lr : Except String IniFile) (s : SSS)
    (hnew : New c lr = (s, none)) :
    s.domain ≠ "" ∧ s.defaultDomainSuffix ≠ "" ∧
      (∀ ini, lr = .ok ini →
        ((ini.getSection "sssd").key "default_domain_suffix" ≠ "" →
          s.defaultDomainSuffix = (ini.getSection "sssd").key "default_domain_suffix") ∧
        ((ini.getSection "sssd").key "default_domain_suffix" = "" →
          s.defaultDomainSuffix = s.domain)) := by
  cases lr with
  | error e => exact absurd hnew (New_error_ne_success c e s)
  | ok ini =>
    obtain ⟨sd, dom, hsd, hne, hkeys, hdom, hs⟩ := New_ok_shape c ini s hnew
    have hdomne : dom ≠ "" := by
      rw [hdom]
      by_cases had : (ini.getSection ("domain/" ++ sd)).key "ad_domain" = ""
      · simpa [had] using hne
      · simp [had]
    subst hs
    refine ⟨hdomne, ?_, ?_⟩
    · show (if (ini.getSection "sssd").key "default_domain_suffix" = ""
          then dom else (ini.getSection "sssd").key "default_domain_suffix") ≠ ""
      by_cases hsfx : (ini.getSection "sssd").key "default_domain_suffix" = ""
      · simpa [hsfx] using hdomne
      · simp [hsfx]
    · intro ini2 hini2
      have h2 : ini2 = ini := by
        injection hini2 with h
        exact h.symm
      rw [h2]
      constructor
      · intro hsfx
        show (if (ini.getSection "sssd").key "default_domain_suffix" = ""
            then dom else (ini.getSection "sssd").key "default_domain_suffix") = _
        rw [if_neg hsfx]
      · intro hsfx
        show (if (ini.getSection "sssd").key "default_domain_suffix" = ""
            then dom else (ini.getSection "sssd").key "default_domain_suffix") = dom
        rw [if_pos hsfx]

/-- C7: for every successfully constructed backend, `HostKrb5CCName` returns
the cache directory joined with `ccache_` plus the upper-cased domain, and a
nil error. -/
theorem hostKrb5CCName_path (c : Config) (lr : Except String IniFile) (s : SSS)
    (hnew : New c lr = (s, none)) :
    HostKrb5CCName s =
      (joinPath (if c.cacheDir = "" then defaultSSSCacheDir else c.cacheDir)
        ("ccache_" ++ goToUpper s.domain), none) := by
  cases lr with
  | error e => exact absurd hnew (New_error_ne_success c e s)
  | ok ini =>
    obtain ⟨sd, dom, hsd, hne, hkeys, hdom, hs⟩ := New_ok_shape c ini s hnew
    subst hs
    rfl


/-- C4: `New` fails with the configuration error of the failing check when
the domains list is empty or the first listed domain's section has zero
keys (an absent section reads as zero keys); every failing construction
returns the zero backend. -/
theorem new_config_error (c : Config) (ini : IniFile) (e : String) :
    ((ini.getSection "sssd").key "domains" = "" →
      New c (.ok ini) = (SSS.zero, some .noDefaultDomain)) ∧
    (∀ d, d = (goSplit ((ini.getSection "sssd").key "domains") ',').headD "" →
      (ini.getSection ("domain/" ++ d)).keyStrings.length = 0 →
      (New c (.ok ini)).2 ≠ none ∧
      (d ≠ "" → New c (.ok ini) = (SSS.zero, some (.emptyDomainSection d)))) ∧
    New c (.error e) = (SSS.zero, some (.iniLoad e)) ∧
    (∀ lr s err, New c lr = (s, some err) → s = SSS.zero) := by
  refine ⟨?_, ?_, rfl, ?_⟩
  · intro hdoms
    simp only [New]
    rw [hdoms]
    rfl
  · intro d hd hkeys
    by_cases hdne : d = ""
    · subst hdne
      have heq : New c (.ok ini) = (SSS.zero, some .noDefaultDomain) := by
        simp only [New]
        rw [← hd]
        rfl
      exact ⟨by rw [heq]; simp, fun h => absurd rfl h⟩
    · have heq : New c (.ok ini) = (SSS.zero, some (.emptyDomainSection d)) := by
        simp only [New]
        rw [← hd, if_neg hdne, if_pos hkeys]
      exact ⟨by rw [heq]; simp, fun _ => heq⟩
  · intro lr s err hnew
    cases lr with
    | error e2 =>
      have := congrArg Prod.fst hnew
      simpa [New] using this.symm
    | ok ini2 =>
      simp only [New] at hnew
      by_cases h1 : (goSplit ((ini2.getSection "sssd").key "domains") ',').headD "" = ""
      · rw [if_pos h1] at hnew
        exact (congrArg Prod.fst hnew).symm
      · rw [if_neg h1] at hnew
        by_cases h2 : (ini2.getSection ("domain/" ++
            (goSplit ((ini2.getSection "sssd").key "domains") ',').headD "")).keyStrings.length = 0
        · rw [if_pos h2] at hnew
          exact (congrArg Prod.fst hnew).symm
        · rw [if_neg h2] at hnew
          exact absurd (congrArg Prod.snd hnew) (by simp)

/-- C6: with `domains = corp,extra`, a populated `[domain/corp]` section
without `ad_domain`, and no `default_domain_suffix`, construction succeeds
with domain `corp` and default domain suffix `corp`. -/
theorem first_listed_domain_authoritative (c : Config) (ini : IniFile)
    (hdoms : (ini.getSection "sssd").key "domains" = "corp,extra")
    (hkeys : (ini.getSection "domain/corp").keyStrings.length ≠ 0)
    (hnoad : (ini.getSection "domain/corp").key "ad_domain" = "")
    (hnodds : (ini.getSection "sssd").key "default_domain_suffix" = "") :
    (New c (.ok ini)).2 = none ∧ (New c (.ok ini)).1.domain = "corp" ∧
      (New c (.ok ini)).1.defaultDomainSuffix = "corp" := by
  have hfirst : (goSplit ((ini.getSection "sssd").key "domains") ',').headD "" = "corp" := by
    rw [hdoms]
    rfl
  have hsec : ("domain/" ++ "corp" : String) = "domain/corp" := rfl
  simp only [New]
  rw [hfirst, hsec, if_neg (by decide : ¬("corp" : String) = ""), if_neg hkeys,
    hnoad, hnodds]
  exact ⟨rfl, rfl, rfl⟩


/-- C2: a backend with a static server returns it for every outcome of the
remote call (no remote call is consulted); without one, an empty discovery
result yields the distinct `noActiveServer` error, a transport failure
yields a `transport` error, and a non-empty result is returned with a
leading `ldap://` stripped. -/
theorem serverFQDN_contract (c : Config) (lr : Except String IniFile) (s : SSS)
    (_hnew : New c lr = (s, none)) :
    (s.staticServerFQDN ≠ "" →
      ∀ call, ServerFQDN s call = .ok s.staticServerFQDN) ∧
    (s.staticServerFQDN = "" →
      ServerFQDN s (.ok "") = .error .noActiveServer ∧
      (∀ e, ServerFQDN s (.error e) = .error (.transport e)) ∧
      (∀ r, r ≠ "" → ServerFQDN s (.ok r) = .ok (goTrimLdap r)) ∧
      (∀ e, (FQDNErr.noActiveServer : FQDNErr) ≠ .transport e)) := by
  constructor
  · intro hstatic call
    unfold ServerFQDN
    rw [if_pos hstatic]
  · intro hstatic
    refine ⟨?_, fun e => ?_, fun r hr => ?_, fun e => by simp⟩
    · simp [ServerFQDN, hstatic]
    · simp [ServerFQDN, hstatic]
    · simp [ServerFQDN, hstatic, hr]

/-- C10: when the configured `ad_server` is exactly `ldap://`, the stored
static server is empty and `ServerFQDN` performs dynamic discovery exactly
as a backend constructed without any `ad_server` value does. -/
theorem adServer_scheme_only_is_dynamic (c : Config) (ini : IniFile) (s : SSS)
    (hnew : New c (.ok ini) = (s, none))
    (hldap : (ini.getSection ("domain/" ++
        (goSplit ((ini.getSection "sssd").key "domains") ',').headD "")).key "ad_server"
      = "ldap://") :
    s.staticServerFQDN = "" ∧
    (∀ call, ServerFQDN s call = serverFQDNDynamic call) ∧
    (∀ (c2 : Config) (ini2 : IniFile) (s2 : SSS),
      New c2 (.ok ini2) = (s2, none) →
      (ini2.getSection ("domain/" ++
          (goSplit ((ini2.getSection "sssd").key "domains") ',').headD "")).key "ad_server"
        = "" →
      ∀ call, ServerFQDN s2 call = ServerFQDN s call) := by
  obtain ⟨sd, dom, hsd, hne, hkeys, hdom, hs⟩ := New_ok_shape c ini s hnew
  rw [← hsd] at hldap
  have hstatic : s.staticServerFQDN = "" := by
    rw [hs]
    show (if (ini.getSection ("domain/" ++ sd)).key "ad_server" ≠ ""
        then goTrimLdap ((ini.getSection ("domain/" ++ sd)).key "ad_server")
        else (ini.getSection ("domain/" ++ sd)).key "ad_server") = ""
    rw [hldap]
    rfl
  have hdyn : ∀ call, ServerFQDN s call = serverFQDNDynamic call := by
    intro call
    cases call with
    | error e => simp [ServerFQDN, serverFQDNDynamic, hstatic]
    | ok r => simp [ServerFQDN, serverFQDNDynamic, hstatic]
  refine ⟨hstatic, hdyn, ?_⟩
  intro c2 ini2 s2 hnew2 hempty call
  obtain ⟨sd2, dom2, hsd2, hne2, hkeys2, hdom2, hs2⟩ := New_ok_shape c2 ini2 s2 hnew2
  rw [← hsd2] at hempty
  have hstatic2 : s2.staticServerFQDN = "" := by
    rw [hs2]
    show (if (ini2.getSection ("domain/" ++ sd2)).key "ad_server" ≠ ""
        then goTrimLdap ((ini2.getSection ("domain/" ++ sd2)).key "ad_server")
        else (ini2.getSection ("domain/" ++ sd2)).key "ad_server") = ""
    rw [hempty]
    rfl
  rw [hdyn call]
  cases call with
  | error e => simp [ServerFQDN, serverFQDNDynamic, hstatic2]
  | ok r => simp [ServerFQDN, serverFQDNDynamic, hstatic2]


/-! ## Concrete configurations for witnesses -/

/-- A parsed configuration listing `domains = corp,extra` with a populated
`[domain/corp]` section carrying neither `ad_domain` nor `ad_server`. -/
def iniNoServer : IniFile :=
  ⟨[("sssd", ⟨[("domains", "corp,extra")]⟩),
    ("domain/corp", ⟨[("id_provider", "ad")]⟩)]⟩

/-- As `iniNoServer` but with a static `ad_server = ldap://dc1.corp.example`. -/
def iniStatic : IniFile :=
  ⟨[("sssd", ⟨[("domains", "corp,extra")]⟩),
    ("domain/corp", ⟨[("ad_server", "ldap://dc1.corp.example")]⟩)]⟩

/-- As `iniNoServer` but with `ad_server = ldap://`, the bare scheme. -/
def iniLdapOnly : IniFile :=
  ⟨[("sssd", ⟨[("domains", "corp,extra")]⟩),
    ("domain/corp", ⟨[("ad_server", "ldap://")]⟩)]⟩

/-- A parsed configuration with no sections at all. -/
def iniEmpty : IniFile := ⟨[]⟩

/-- A parsed configuration listing a domain whose section is absent. -/
def iniOnlyDomains : IniFile := ⟨[("sssd", ⟨[("domains", "corp")]⟩)]⟩

/-- Witness for C5 at a concrete configuration. -/
theorem new_success_invariants_witness :
    New ⟨"", ""⟩ (.ok iniNoServer) = ((New ⟨"", ""⟩ (.ok iniNoServer)).1, none) ∧
      (New ⟨"", ""⟩ (.ok iniNoServer)).1.domain ≠ "" ∧
      (New ⟨"", ""⟩ (.ok iniNoServer)).1.defaultDomainSuffix ≠ "" := by
  have hnew : New ⟨"", ""⟩ (.ok iniNoServer) =
      ((New ⟨"", ""⟩ (.ok iniNoServer)).1, none) := by decide
  have h := new_success_invariants ⟨"", ""⟩ (.ok iniNoServer) _ hnew
  exact ⟨hnew, h.1, h.2.1⟩

/-- Witness for C7 at a concrete configuration. -/
theorem hostKrb5CCName_path_witness :
    New ⟨"", ""⟩ (.ok iniNoServer) = ((New ⟨"", ""⟩ (.ok iniNoServer)).1, none) ∧
      HostKrb5CCName (New ⟨"", ""⟩ (.ok iniNoServer)).1 =
        (joinPath defaultSSSCacheDir
          ("ccache_" ++ goToUpper (New ⟨"", ""⟩ (.ok iniNoServer)).1.domain), none) := by
  have hnew : New ⟨"", ""⟩ (.ok iniNoServer) =
      ((New ⟨"", ""⟩ (.ok iniNoServer)).1, none) := by decide
  exact ⟨hnew, hostKrb5CCName_path ⟨"", ""⟩ (.ok iniNoServer) _ hnew⟩

/-- Witness for C4 at concrete configurations exercising each error path. -/
theorem new_config_error_witness :
    New ⟨"", ""⟩ (.ok iniEmpty) = (SSS.zero, some .noDefaultDomain) ∧
      New ⟨"", ""⟩ (.ok iniOnlyDomains) = (SSS.zero, some (.emptyDomainSection "corp")) ∧
      New ⟨"", ""⟩ (.error "read failure") = (SSS.zero, some (.iniLoad "read failure")) ∧
      SSS.zero = SSS.zero := by
  have h := new_config_error ⟨"", ""⟩ iniEmpty "read failure"
  have h2 := new_config_error ⟨"", ""⟩ iniOnlyDomains "read failure"
  exact ⟨h.1 (by decide), (h2.2.1 "corp" (by decide) (by decide)).2 (by decide),
    h2.2.2.1,
    h2.2.2.2 (.error "read failure") SSS.zero (.iniLoad "read failure") (by decide)⟩

/-- Witness for C6 at a concrete configuration. -/
theorem first_listed_domain_authoritative_witness :
    (New ⟨"", ""⟩ (.ok iniNoServer)).2 = none ∧
      (New ⟨"", ""⟩ (.ok iniNoServer)).1.domain = "corp" ∧
      (New ⟨"", ""⟩ (.ok iniNoServer)).1.defaultDomainSuffix = "corp" :=
  first_listed_domain_authoritative ⟨"", ""⟩ iniNoServer (by decide) (by decide)
    (by decide) (by decide)

/-- Witness for C2 at a concrete configuration with a static server. -/
theorem serverFQDN_contract_witness :
    New ⟨"", ""⟩ (.ok iniStatic) = ((New ⟨"", ""⟩ (.ok iniStatic)).1, none) ∧
      (New ⟨"", ""⟩ (.ok iniStatic)).1.staticServerFQDN = "dc1.corp.example" ∧
      ServerFQDN (New ⟨"", ""⟩ (.ok iniStatic)).1 (.ok "") =
        .ok (New ⟨"", ""⟩ (.ok iniStatic)).1.staticServerFQDN := by
  have hnew : New ⟨"", ""⟩ (.ok iniStatic) =
      ((New ⟨"", ""⟩ (.ok iniStatic)).1, none) := by decide
  have h := serverFQDN_contract ⟨"", ""⟩ (.ok iniStatic) _ hnew
  exact ⟨hnew, by decide, h.1 (by decide) (.ok "")⟩

/-- Witness for C10 at a concrete configuration with `ad_server = ldap://`. -/
theorem adServer_scheme_only_is_dynamic_witness :
    (New ⟨"", ""⟩ (.ok iniLdapOnly)).1.staticServerFQDN = "" ∧
      ServerFQDN (New ⟨"", ""⟩ (.ok iniLdapOnly)).1 (.ok "ldap://dc2.corp.example") =
        serverFQDNDynamic (.ok "ldap://dc2.corp.example") ∧
      ServerFQDN (New ⟨"", ""⟩ (.ok iniNoServer)).1 (.ok "dc2.corp.example") =
        ServerFQDN (New ⟨"", ""⟩ (.ok iniLdapOnly)).1 (.ok "dc2.corp.example") := by
  have hnew : New ⟨"", ""⟩ (.ok iniLdapOnly) =
      ((New ⟨"", ""⟩ (.ok iniLdapOnly)).1, none) := by decide
  have h := adServer_scheme_only_is_dynamic ⟨"", ""⟩ iniLdapOnly _ hnew (by decide)
  have hnew2 : New ⟨"", ""⟩ (.ok iniNoServer) =
      ((New ⟨"", ""⟩ (.ok iniNoServer)).1, none) := by decide
  exact ⟨h.1, h.2.1 _, h.2.2 ⟨"", ""⟩ iniNoServer _ hnew2 (by decide) _⟩


/-! ## The daemon lifecycle controller (C9)

Only the documentation and tests of the daemon are among the excerpted
sources, so the controller is modelled from the specification; concurrency
is modelled as an arbitrary interleaving of atomic events. -/

/-- Modelled from the spec: the daemon lifecycle state of the specification,
whose implementation is not under the excerpted sources: sticky
`quitRequested`, the listening socket, the armed/disarmed idle timer, the
count of active calls, the mutable timeout, and the error `Listen()` will
return (set only by a failed bind, before any event). -/
structure Daemon where
  quitRequested : Bool
  socketOpen : Bool
  timerArmed : Bool
  activeCount : Nat
  timeoutDuration : Nat
  listenErr : Option String
deriving DecidableEq

/-- Modelled from the spec: the atomic events that can reach the controller
from any concurrent context: `Quit(force)`, an idle-timer expiry, the
per-call connection hooks, and a timeout change. -/
inductive DEvent
  | quit (force : Bool)
  | timerExpire
  | newConn
  | doneConn
  | changeTimeout (d : Nat)
deriving DecidableEq

/-- Modelled from the spec: one atomic step of the controller. A first
`Quit` sets `quitRequested`, disarms the timer and closes the socket; later
`Quit`s are no-ops. Timer expiry shuts down only when armed, idle and not
already quitting. The connection hooks adjust the count and the timer; a
timeout change only updates the duration. No event modifies the error
`Listen()` returns. -/
def step (st : Daemon) (ev : DEvent) : Daemon :=
  match ev with
  | .quit _ =>
      if st.quitRequested then st
      else { st with quitRequested := true, timerArmed := false, socketOpen := false }
  | .timerExpire =>
      if st.timerArmed ∧ st.activeCount = 0 ∧ st.quitRequested = false then
        { st with timerArmed := false, socketOpen := false }
      else st
  | .newConn => { st with activeCount := st.activeCount + 1, timerArmed := false }
  | .doneConn =>
      if st.activeCount - 1 = 0 ∧ st.quitRequested = false ∧ st.timeoutDuration ≠ 0 then
        { st with activeCount := st.activeCount - 1, timerArmed := true }
      else { st with activeCount := st.activeCount - 1 }
  | .changeTimeout d => { st with timeoutDuration := d }

/-- A finite interleaving of atomic controller events. -/
def run (st : Daemon) (evs : List DEvent) : Daemon := evs.foldl step st

/-- Modelled from the spec: the value `Listen()` returns once the daemon has
stopped — its bind error, nil on every clean shutdown path. -/
def listenReturn (st : Daemon) : Option String := st.listenErr

lemma step_preserves_quitRequested (st : Daemon) (ev : DEvent)
    (h : st.quitRequested = true) : (step st ev).quitRequested = true := by
  cases ev <;> simp [step, h]

lemma run_preserves_quitRequested (evs : List DEvent) :
    ∀ st : Daemon, st.quitRequested = true → (run st evs).quitRequested = true := by
  induction evs with
  | nil => intro st h; exact h
  | cons ev t ih =>
    intro st h
    exact ih (step st ev) (step_preserves_quitRequested st ev h)

lemma step_quit_of_quitRequested (st : Daemon) (f : Bool)
    (h : st.quitRequested = true) : step st (.quit f) = st := by
  simp [step, h]

lemma step_listenErr (st : Daemon) (ev : DEvent) :
    (step st ev).listenErr = st.listenErr := by
  cases ev <;> simp only [step] <;> split <;> rfl

lemma run_listenErr (evs : List DEvent) :
    ∀ st : Daemon, (run st evs).listenErr = st.listenErr := by
  induction evs with
  | nil => intro st; rfl
  | cons ev t ih =>
    intro st
    rw [run, List.foldl_cons]
    rw [show (t.foldl step (step st ev)) = run (step st ev) t from rfl]
    rw [ih (step st ev), step_listenErr]

/-- C9: under any interleaving of further events — more `Quit`s, timer
expiries, connection hooks — every `Quit` after the first is a no-op on the
controller state, and no sequence of events changes the value `Listen()`
returns, so `Quit` never makes `Listen()` fail, on a running or an
already-stopped daemon. -/
theorem quit_idempotent_and_listen_clean (st : Daemon) (evs : List DEvent)
    (f f2 : Bool) :
    step (run (step st (.quit f)) evs) (.quit f2) = run (step st (.quit f)) evs ∧
      listenReturn (run st evs) = listenReturn st := by
  constructor
  · apply step_quit_of_quitRequested
    apply run_preserves_quitRequested
    by_cases h : st.quitRequested = true
    · rw [step_quit_of_quitRequested st f h]
      exact h
    · simp only [step, Bool.not_eq_true] at h
      simp [step, h]
  · exact run_listenErr evs st

end Adsys
